import Mathlib

/-!
Shallow embedding of the game engine in `Deadline/game_logic.py` (classes
`Effect`, `Task`, `Card`, `TaskCard`, `ActionCard`, `Deadline`, `Player`,
`Game`) and proofs about it.

Modelling conventions:
* Python ints are `Int` (days, hours, points, deltas); list indices are `Nat`.
* Display-only fields (`name`, `description`, `image`, and the unused
  `req_args`/`check_args` of `ActionCard`) never enter the game logic and are
  omitted, except `Player.name`, which the snapshot accessor returns.
* A raised Python exception is modelled by an `err` field inside the game
  state: raising sets `err`, and every subsequent mutating step is a no-op
  (guards on `err`), so the state observed at raise time is preserved exactly
  as with Python's in-place mutation.
* Dictionary lookups (`self._ALL_EFFECTS[eid]`, ...) are association-list
  lookups; a miss raises `KeyError` in Python and sets `err := keyMissing`
  here.  The `self._players[pid]` dictionary has exactly the keys
  `playerPid` and `opponentPid`; `playerOf`/`setPlayerOf` are faithful for
  those two keys (other pids raise `KeyError` in Python and are exercised by
  no claim; theorems restrict to valid pids where it matters).
* The `for idx, x in enumerate(lst): ... lst.pop(idx)` loops of
  `turn_begin`/`turn_end` are embedded step by step against the live list,
  reproducing Python's iterator semantics exactly (after `pop(idx)` the next
  visited element is position `idx + 1` of the shrunk list, so the element
  shifted into `idx` is skipped; elements appended during iteration are
  visited).  Such a loop diverges in Python only on pathological catalogs
  (zero-difficulty tasks endlessly granting new ones); the embedding carries
  a fuel argument of `1000 + length`, ample for every state considered here.
-/

namespace DeadlineGame

/-- Event argument: Python event args are ints (hour deltas) or strings (task ids). -/
inductive Val where
  | i : Int → Val
  | s : String → Val
deriving DecidableEq

/-- Event: the Python type alias `Event = tuple[str, list]`. -/
abbrev Event := String × List Val

/-- Effect: class `Effect` (display-only fields omitted). -/
structure Effect where
  eid : String
  period : Int
  delay : Int
  removable : Bool
  initEvents : List Event
  finalEvents : List Event
  everydayEvents : List Event
deriving DecidableEq

/-- Task: class `Task` (display-only fields omitted). -/
structure Task where
  tid : String
  difficulty : Int
  deadline : Int
  award : Int
  penalty : Int
  eventsOnSuccess : List Event
  eventsOnFail : List Event
deriving DecidableEq

/-- Card targets: enum `CardTarget`. -/
inductive CardTarget where
  | GLOBAL
  | PLAYER
  | OPPONENT
  | ANY
deriving DecidableEq

/-- Fields shared by both card variants (class `Card`). -/
structure CardBase where
  cid : String
  validTarget : CardTarget
  special : Bool
deriving DecidableEq

/-- Card: the `TaskCard` / `ActionCard` subclasses of the abstract `Card`. -/
inductive Card where
  | taskCard (base : CardBase) (task : String)
  | actionCard (base : CardBase) (cost : Int) (action : String)
deriving DecidableEq

/-- Deadline: class `Deadline`. `deadline` is fixed at construction as
`init_day + task.deadline`. -/
structure Deadline where
  task : Task
  initDay : Int
  deadline : Int
  progress : Int
deriving DecidableEq

/-- Constructor `Deadline.__init__`. -/
def Deadline.create (task : Task) (initDay : Int) : Deadline :=
  ⟨task, initDay, initDay + task.deadline, 0⟩

/-- Method `Deadline.get_rem_hours`. -/
def Deadline.getRemHours (d : Deadline) : Int :=
  d.task.difficulty - d.progress

/-- Method `Deadline.work`: `assert hours <= rem` then `progress += hours`,
returning whether the deadline is now complete.  A failed assert is `none`
(the AssertionError is raised before any mutation). -/
def Deadline.work (d : Deadline) (hours : Int) : Option (Bool × Deadline) :=
  if hours ≤ d.getRemHours then
    let d' : Deadline := { d with progress := d.progress + hours }
    some (decide (d'.getRemHours = 0), d')
  else
    none

/-- Run `Deadline.work` over a list of hour amounts, counting how many calls
returned `True`; `none` as soon as one call fails. -/
def runWork (d : Deadline) (hs : List Int) : Option (Deadline × Nat) :=
  match hs with
  | [] => some (d, 0)
  | h :: t =>
    match d.work h with
    | none => none
    | some (b, d') =>
      match runWork d' t with
      | none => none
      | some (df, c) => some (df, c + (if b then 1 else 0))

/-- Player: class `Player`. -/
structure Player where
  pid : Int
  name : String
  hoursToday : Int
  spentHoursToday : Int
  score : Int
  hand : List String
  deadlines : List Deadline
  effects : List (Int × String)
deriving DecidableEq

/-- Method `Player.free_hours`. -/
def Player.freeHours (p : Player) : Int :=
  p.hoursToday - p.spentHoursToday

/-- Method `Player.take_cards_from_deck`: `self.hand += cards`. -/
def Player.takeCardsFromDeck (p : Player) (cards : List String) : Player :=
  { p with hand := p.hand ++ cards }

/-- Method `Player.use_card`: asserts the index is in range, then
`hand.pop(idx)`, returning the removed card id. -/
def Player.useCard (p : Player) (idx : Nat) : Option (String × Player) :=
  if h : idx < p.hand.length then
    some (p.hand.get ⟨idx, h⟩, { p with hand := p.hand.eraseIdx idx })
  else
    none

/-- Method `Player.spend_time`: asserts `hours <= free_hours` then
`spent_hours_today += hours`. -/
def Player.spendTime (p : Player) (hours : Int) : Option Player :=
  if hours ≤ p.freeHours then
    some { p with spentHoursToday := p.spentHoursToday + hours }
  else
    none

/-- Kinds of Python exceptions the engine can raise. -/
inductive GErr where
  | assertionFailed
  | typeMismatch
  | keyMissing
  | indexOut
deriving DecidableEq

/-- Result dict of the legality checks: keys `res` and (optionally) `msg`. -/
structure CheckResult where
  res : Bool
  msg : Option String
deriving DecidableEq

/-- The class attribute `_HOURS_IN_DAY_MAX = 24`. -/
def HOURS_IN_DAY_MAX : Int := 24

/-- Game: class `Game`.  Catalog tables are association lists; `err` records
a pending raised exception (see the module header). -/
structure Game where
  HAND_SIZE : Nat
  DECK_SIZE : Nat
  WIN_THRESHOLD : Int
  DEFEAT_THRESHOLD : Int
  DAYS_IN_TERM : Int
  HOURS_IN_DAY_DEFAULT : Int
  allEffects : List (String × Effect)
  allTasks : List (String × Task)
  allCards : List (String × Card)
  playerPid : Int
  opponentPid : Int
  player : Player
  opponent : Player
  day : Int
  playerTookCard : Bool
  opponentTookCard : Bool
  haveExams : Bool
  effects : List (Int × String)
  deck : List String
  err : Option GErr
deriving DecidableEq

/-- Access `self._players[pid]`; faithful for the dict's two keys
`playerPid` and `opponentPid`. -/
def Game.playerOf (g : Game) (pid : Int) : Player :=
  if pid = g.playerPid then g.player else g.opponent

/-- Store back into `self._players[pid]` (in Python the dict holds the same
mutable objects as `_player`/`_opponent`, so mutating one mutates both views). -/
def Game.setPlayerOf (g : Game) (pid : Int) (p : Player) : Game :=
  if pid = g.playerPid then { g with player := p } else { g with opponent := p }

/-- Raise a Python exception: record it; later steps become no-ops. -/
def Game.raiseErr (g : Game) (e : GErr) : Game :=
  if g.err.isSome then g else { g with err := some e }

/-- Run a step only when no exception is pending. -/
def Game.whenOk (g : Game) (f : Game → Game) : Game :=
  if g.err.isSome then g else f g

/-- The statement `self._effects.append(entry)`. -/
def Game.appendGlobalEffect (g : Game) (entry : Int × String) : Game :=
  { g with effects := g.effects ++ [entry] }

/-- The statement `self._players[pid].effects.append(entry)`. -/
def Game.appendPlayerEffect (g : Game) (pid : Int) (entry : Int × String) : Game :=
  let p := g.playerOf pid
  g.setPlayerOf pid { p with effects := p.effects ++ [entry] }

/-- The statement `self._players[pid].deadlines.append(d)`. -/
def Game.appendDeadline (g : Game) (pid : Int) (d : Deadline) : Game :=
  let p := g.playerOf pid
  g.setPlayerOf pid { p with deadlines := p.deadlines ++ [d] }

/-- Method `Game._take_special_task`: appends `Deadline(ALL_TASKS[tid], day)`
to the player's deadline list (KeyError on an unknown task id). -/
def Game.takeSpecialTask (g : Game) (pid : Int) (tid : String) : Game :=
  match g.allTasks.lookup tid with
  | none => g.raiseErr .keyMissing
  | some t => g.appendDeadline pid (Deadline.create t g.day)

/-- One case of the `match event` dispatch in `Game._events`.  Recognized
kinds are "special task" and "add hours"; everything else is a no-op.
"add hours" clamps only from above (`if hours_today > MAX: hours_today = MAX`). -/
def Game.eventStep (g : Game) (pid : Int) (ev : Event) : Game :=
  if g.err.isSome then g
  else if ev.1 = "special task" then
    match ev.2 with
    | Val.s tid :: _ => g.takeSpecialTask pid tid
    | Val.i _ :: _ => g.raiseErr .keyMissing
    | [] => g.raiseErr .indexOut
  else if ev.1 = "add hours" then
    match ev.2 with
    | Val.i delta :: _ =>
      let p := g.playerOf pid
      let h := p.hoursToday + delta
      g.setPlayerOf pid
        { p with hoursToday := if h > HOURS_IN_DAY_MAX then HOURS_IN_DAY_MAX else h }
    | Val.s _ :: _ => g.raiseErr .typeMismatch
    | [] => g.raiseErr .indexOut
  else g

/-- Method `Game._events`: activate a list of events against a target pid. -/
def Game.events (g : Game) (evs : List Event) (pid : Int) : Game :=
  evs.foldl (fun g ev => g.eventStep pid ev) g

/-- Method `Game._can_take_card`.  The third test is transcribed exactly as
written in the source: `actor_pid == self._player_pid and self._player_took_card
or actor_pid == self._opponent_took_card and self._opponent_took_card` — note
the second disjunct compares the pid with the *boolean* `_opponent_took_card`
(Python `True == 1`, `False == 0`). -/
def Game.canTakeCard (g : Game) (actorPid : Int) : CheckResult :=
  if g.deck.length = 0 then ⟨false, some "No more cards in deck!"⟩
  else if (g.playerOf actorPid).hand.length ≥ g.HAND_SIZE then
    ⟨false, some "Cards limit is reached!"⟩
  else if (actorPid = g.playerPid ∧ g.playerTookCard) ∨
      (actorPid = (if g.opponentTookCard then (1 : Int) else 0) ∧ g.opponentTookCard) then
    ⟨false, some "You have reached the daily limit!"⟩
  else ⟨true, none⟩

/-- Method `Game._can_use_card`: only ActionCards whose cost exceeds the
actor's free hours fail; `none` is the KeyError of `_ALL_CARDS[cid]`. -/
def Game.canUseCard (g : Game) (actorPid : Int) (cid : String) : Option CheckResult :=
  match g.allCards.lookup cid with
  | none => none
  | some (Card.actionCard _ cost _) =>
    if cost > (g.playerOf actorPid).freeHours then
      some ⟨false, some "Not enough free time!"⟩
    else some ⟨true, none⟩
  | some (Card.taskCard _ _) => some ⟨true, none⟩

/-- Method `Game._can_spend_time`; `none` is the IndexError of
`deadlines[target_deadline_idx]` on an out-of-range index. -/
def Game.canSpendTime (g : Game) (actorPid : Int) (idx : Nat) (hours : Int) :
    Option CheckResult :=
  match (g.playerOf actorPid).deadlines.get? idx with
  | none => none
  | some d =>
    if hours > d.getRemHours then
      some ⟨false, some "You are trying to spend too much time!"⟩
    else if hours > (g.playerOf actorPid).freeHours then
      some ⟨false, some "Not enough free time!"⟩
    else some ⟨true, none⟩

/-- Method `Game._use_card`.  Order is the source's: pop the card from the
hand first, then `assert can_use_card['res']`, then branch on the card's
target and type.  A GLOBAL non-ActionCard raises TypeError (after the pop). -/
def Game.useCard (g : Game) (actorPid : Int) (cardIdx : Nat) (targetPid : Int) : Game :=
  if g.err.isSome then g
  else
    match (g.playerOf actorPid).useCard cardIdx with
    | none => g.raiseErr .assertionFailed
    | some (cid, pA) =>
      let g := g.setPlayerOf actorPid pA
      match g.canUseCard actorPid cid with
      | none => g.raiseErr .keyMissing
      | some chk =>
        if chk.res = false then g.raiseErr .assertionFailed
        else
          match g.allCards.lookup cid with
          | none => g.raiseErr .keyMissing
          | some (Card.actionCard base cost action) =>
            if base.validTarget = CardTarget.GLOBAL then
              match (g.playerOf actorPid).spendTime cost with
              | none => g.raiseErr .assertionFailed
              | some p' =>
                let g := g.setPlayerOf actorPid p'
                let g := g.appendGlobalEffect (g.day, action)
                match g.allEffects.lookup action with
                | none => g.raiseErr .keyMissing
                | some eff =>
                  if eff.delay = 0 then g.events eff.initEvents actorPid else g
            else
              match (g.playerOf actorPid).spendTime cost with
              | none => g.raiseErr .assertionFailed
              | some p' =>
                let g := g.setPlayerOf actorPid p'
                let g := g.appendPlayerEffect targetPid (g.day, action)
                match g.allEffects.lookup action with
                | none => g.raiseErr .keyMissing
                | some eff =>
                  if eff.delay = 0 then g.events eff.initEvents actorPid else g
          | some (Card.taskCard base task) =>
            if base.validTarget = CardTarget.GLOBAL then g.raiseErr .typeMismatch
            else
              match g.allTasks.lookup task with
              | none => g.raiseErr .keyMissing
              | some t => g.appendDeadline targetPid (Deadline.create t g.day)

/-- Method `Game._spend_time`.  The source's re-validation is
`assert self._can_spend_time(actor_pid, target_deadline_idx, hours)` — the
`['res']` subscript is missing, and a non-empty dict is always truthy, so the
assert never fails; only the IndexError raised while *evaluating*
`_can_spend_time` on a bad index can stop the call here.  Then
`Player.spend_time` and `Deadline.work` run, each with its own assert. -/
def Game.spendTime (g : Game) (actorPid : Int) (idx : Nat) (hours : Int) : Game :=
  if g.err.isSome then g
  else
    match g.canSpendTime actorPid idx hours with
    | none => g.raiseErr .indexOut
    | some _ =>
      match (g.playerOf actorPid).spendTime hours with
      | none => g.raiseErr .assertionFailed
      | some p' =>
        let g := g.setPlayerOf actorPid p'
        match (g.playerOf actorPid).deadlines.get? idx with
        | none => g.raiseErr .indexOut
        | some d =>
          match d.work hours with
          | none => g.raiseErr .assertionFailed
          | some (_, d') =>
            let p := g.playerOf actorPid
            g.setPlayerOf actorPid { p with deadlines := p.deadlines.set idx d' }

/-- The completed-deadline loops of `turn_begin`/`turn_end`:
`for idx, deadline in enumerate(pl.deadlines): if rem == 0: score += award;
events(on_success, pid); deadlines.pop(idx)`.  The list is read live each
step, `pop(idx)` is `eraseIdx idx`, and iteration continues at `idx + 1` of
the shrunk list — Python's exact iterator behaviour. -/
def Game.successLoop (pid : Int) : Nat → Nat → Game → Game
  | 0, _, g => g
  | fuel + 1, i, g =>
    if g.err.isSome then g
    else
      let dls := (g.playerOf pid).deadlines
      if h : i < dls.length then
        let d := dls.get ⟨i, h⟩
        if d.getRemHours = 0 then
          let p := g.playerOf pid
          let g := g.setPlayerOf pid { p with score := p.score + d.task.award }
          let g := g.events d.task.eventsOnSuccess pid
          let p := g.playerOf pid
          let g := g.setPlayerOf pid { p with deadlines := p.deadlines.eraseIdx i }
          Game.successLoop pid fuel (i + 1) g
        else Game.successLoop pid fuel (i + 1) g
      else g

/-- The failed-deadline loops of `turn_begin`/`turn_end`:
`for idx, deadline in enumerate(pl.deadlines): if deadline.deadline == day:
score += penalty; events(on_fail, pid); deadlines.pop(idx)` — same live-list
iterator semantics as `successLoop`. -/
def Game.failLoop (pid : Int) : Nat → Nat → Game → Game
  | 0, _, g => g
  | fuel + 1, i, g =>
    if g.err.isSome then g
    else
      let dls := (g.playerOf pid).deadlines
      if h : i < dls.length then
        let d := dls.get ⟨i, h⟩
        if d.deadline = g.day then
          let p := g.playerOf pid
          let g := g.setPlayerOf pid { p with score := p.score + d.task.penalty }
          let g := g.events d.task.eventsOnFail pid
          let p := g.playerOf pid
          let g := g.setPlayerOf pid { p with deadlines := p.deadlines.eraseIdx i }
          Game.failLoop pid fuel (i + 1) g
        else Game.failLoop pid fuel (i + 1) g
      else g

/-- One entry of the "Apply active effects" loops: look the effect up, then
fire its init, final or everyday events depending on the day. -/
def Game.effectTick (g : Game) (pid : Int) (entry : Int × String) : Game :=
  if g.err.isSome then g
  else
    match g.allEffects.lookup entry.2 with
    | none => g.raiseErr .keyMissing
    | some eff =>
      if g.day = entry.1 + eff.delay then g.events eff.initEvents pid
      else if g.day = entry.1 + eff.delay + eff.period then g.events eff.finalEvents pid
      else g.events eff.everydayEvents pid

/-- The "Remove expired effects" loop over a player's effect list:
`for idx, (init_day, eid) in enumerate(pl.effects): if day == init_day +
delay + period: pl.effects.pop(idx)` — live-list iterator semantics. -/
def Game.pruneWhoEffects (pid : Int) : Nat → Nat → Game → Game
  | 0, _, g => g
  | fuel + 1, i, g =>
    if g.err.isSome then g
    else
      let effs := (g.playerOf pid).effects
      if h : i < effs.length then
        let e := effs.get ⟨i, h⟩
        match g.allEffects.lookup e.2 with
        | none => g.raiseErr .keyMissing
        | some eff =>
          if g.day = e.1 + eff.delay + eff.period then
            let p := g.playerOf pid
            Game.pruneWhoEffects pid fuel (i + 1)
              (g.setPlayerOf pid { p with effects := p.effects.eraseIdx i })
          else Game.pruneWhoEffects pid fuel (i + 1) g
      else g

/-- The "Remove expired effects" loop over the global `self._effects` list —
same live-list iterator semantics. -/
def Game.pruneGlobalEffects : Nat → Nat → Game → Game
  | 0, _, g => g
  | fuel + 1, i, g =>
    if g.err.isSome then g
    else
      if h : i < g.effects.length then
        let e := g.effects.get ⟨i, h⟩
        match g.allEffects.lookup e.2 with
        | none => g.raiseErr .keyMissing
        | some eff =>
          if g.day = e.1 + eff.delay + eff.period then
            Game.pruneGlobalEffects fuel (i + 1) { g with effects := g.effects.eraseIdx i }
          else Game.pruneGlobalEffects fuel (i + 1) g
      else g

/-- Method `Game.turn_begin`, statement by statement.  The "Apply active
effects" loop iterates the freshly built concatenation
`self._player.effects + self._effects` (a new list, so mutations during the
loop do not change the iteration sequence). -/
def Game.turnBegin (g : Game) : Game :=
  let g := g.whenOk fun g => { g with playerTookCard := false, opponentTookCard := false }
  let g := g.whenOk fun g =>
    Game.successLoop g.opponentPid (1000 + (g.playerOf g.opponentPid).deadlines.length) 0 g
  let g := g.whenOk fun g =>
    { g with player :=
        { g.player with hoursToday := g.HOURS_IN_DAY_DEFAULT, spentHoursToday := 0 } }
  let g := g.whenOk fun g =>
    (g.player.effects ++ g.effects).foldl (fun g e => g.effectTick g.playerPid e) g
  let g := g.whenOk fun g =>
    Game.pruneWhoEffects g.playerPid (1000 + g.player.effects.length) 0 g
  let g := g.whenOk fun g => Game.pruneGlobalEffects (1000 + g.effects.length) 0 g
  let g := g.whenOk fun g =>
    Game.failLoop g.playerPid (1000 + g.player.deadlines.length) 0 g
  g

/-- Method `Game.turn_end`, statement by statement; returns the transition
result string (or `none` when an exception aborted the call).  The draw
branch is transcribed exactly as in the source: both score comparisons are
`self._player.score` against `self._player.score` itself. -/
def Game.turnEnd (g : Game) : Game × Option String :=
  let g := g.whenOk fun g =>
    { g with day := g.day + 1, playerTookCard := false, opponentTookCard := false }
  let g := g.whenOk fun g =>
    Game.successLoop g.playerPid (1000 + (g.playerOf g.playerPid).deadlines.length) 0 g
  let g := g.whenOk fun g =>
    { g with opponent :=
        { g.opponent with hoursToday := g.HOURS_IN_DAY_DEFAULT, spentHoursToday := 0 } }
  let g := g.whenOk fun g =>
    g.opponent.effects.foldl (fun g e => g.effectTick g.opponentPid e) g
  let g := g.whenOk fun g =>
    Game.pruneWhoEffects g.opponentPid (1000 + g.opponent.effects.length) 0 g
  let g := g.whenOk fun g => Game.pruneGlobalEffects (1000 + g.effects.length) 0 g
  let g := g.whenOk fun g =>
    Game.failLoop g.opponentPid (1000 + (g.playerOf g.opponentPid).deadlines.length) 0 g
  if g.err.isSome then (g, none)
  else if g.deck.length = 0 ∧ g.effects.length = 0 ∧
      g.player.hand.length = 0 ∧ g.opponent.hand.length = 0 ∧
      g.player.deadlines.length = 0 ∧ g.opponent.deadlines.length = 0 ∧
      g.player.effects.length = 0 ∧ g.opponent.effects.length = 0 then
    if g.player.score = g.player.score then (g, some "draw")
    else if g.player.score > g.player.score then (g, some "win")
    else (g, some "defeat")
  else if g.player.score ≥ g.WIN_THRESHOLD then (g, some "win")
  else if g.player.score ≤ g.DEFEAT_THRESHOLD then (g, some "defeat")
  else (g, some "game continues")

/-- Method `Game._deal_cards`: `self._players[1]` takes `deck[:H]`,
`self._players[0]` takes `deck[H:2H]`, then `deck = deck[2H:]`.  The literal
keys 1 and 0 make dealing pid-dependent only, not first/second-dependent. -/
def Game.dealCards (g : Game) : Game :=
  let g := g.setPlayerOf 1 ((g.playerOf 1).takeCardsFromDeck (g.deck.take g.HAND_SIZE))
  let g := g.setPlayerOf 0
    ((g.playerOf 0).takeCardsFromDeck ((g.deck.drop g.HAND_SIZE).take g.HAND_SIZE))
  { g with deck := g.deck.drop (2 * g.HAND_SIZE) }

/-- The `'player'` sub-dict of `get_game_info` (own hand in full). -/
structure PlayerInfo where
  pid : Int
  name : String
  score : Int
  hours : Int
  spentHours : Int
  freeHours : Int
  deadlines : List Deadline
  effects : List (Int × Option Effect)
  hand : List (Option Card)
deriving DecidableEq

/-- The `'opponent'` sub-dict of `get_game_info`: same fields but a
`hand size` count instead of the `hand` key. -/
structure OpponentInfo where
  pid : Int
  name : String
  score : Int
  hours : Int
  spentHours : Int
  freeHours : Int
  deadlines : List Deadline
  effects : List (Int × Option Effect)
  handSize : Nat
deriving DecidableEq

/-- The `'global'` sub-dict of `get_game_info`. -/
structure GlobalInfo where
  day : Int
  haveExams : Bool
  effects : List (Int × Option Effect)
  deckSize : Nat
deriving DecidableEq

/-- The `'constants'` sub-dict of `get_game_info`. -/
structure ConstInfo where
  initDeckSize : Nat
  maxHandSize : Nat
  winThreshold : Int
  defeatThreshold : Int
  daysInTerm : Int
  hours : Int
  maxHours : Int
deriving DecidableEq

/-- The full return value of `get_game_info`. -/
structure GameInfo where
  player : PlayerInfo
  opponent : OpponentInfo
  globalInfo : GlobalInfo
  constants : ConstInfo
deriving DecidableEq

/-- Helper `eids_to_effects` inside `get_game_info` (a lookup miss raises
KeyError in Python; modelled as a `none` entry, which no claim exercises). -/
def Game.eidsToEffects (g : Game) (effs : List (Int × String)) :
    List (Int × Option Effect) :=
  effs.map fun e => (e.1, g.allEffects.lookup e.2)

/-- Helper `cids_to_cards` inside `get_game_info` (lookup miss as `none`). -/
def Game.cidsToCards (g : Game) (cids : List String) : List (Option Card) :=
  cids.map fun c => g.allCards.lookup c

/-- Method `Game.get_game_info`, the read-only snapshot accessor. -/
def Game.getGameInfo (g : Game) : GameInfo :=
  { player :=
      { pid := g.player.pid
        name := g.player.name
        score := g.player.score
        hours := g.player.hoursToday
        spentHours := g.player.spentHoursToday
        freeHours := g.player.freeHours
        deadlines := g.player.deadlines
        effects := g.eidsToEffects g.player.effects
        hand := g.cidsToCards g.player.hand }
    opponent :=
      { pid := g.opponent.pid
        name := g.opponent.name
        score := g.opponent.score
        hours := g.opponent.hoursToday
        spentHours := g.opponent.spentHoursToday
        freeHours := g.opponent.freeHours
        deadlines := g.opponent.deadlines
        effects := g.eidsToEffects g.opponent.effects
        handSize := g.opponent.hand.length }
    globalInfo :=
      { day := g.day
        haveExams := g.haveExams
        effects := g.eidsToEffects g.effects
        deckSize := g.deck.length }
    constants :=
      { initDeckSize := g.DECK_SIZE
        maxHandSize := g.HAND_SIZE
        winThreshold := g.WIN_THRESHOLD
        defeatThreshold := g.DEFEAT_THRESHOLD
        daysInTerm := g.DAYS_IN_TERM
        hours := g.HOURS_IN_DAY_DEFAULT
        maxHours := HOURS_IN_DAY_MAX } }

/-! Concrete fixtures, mirroring entries of `game_config.json` (built by
`dev/make_game_config.py`): effect `e0` ("Кофе": period 1, delay 0, init
event `('add hours', [6])`), task `t0` ("Матан": difficulty 3, deadline 3,
award 3, penalty −6), action card `ac0` (target PLAYER, cost 0, action `e0`)
and task card `tc0` (target OPPONENT, task `t0`). -/

/-- Effect `e0` of the shipped catalog. -/
def effE0 : Effect :=
  ⟨"e0", 1, 0, false, [("add hours", [Val.i 6])], [], []⟩

/-- Task `t0` of the shipped catalog. -/
def taskT0 : Task :=
  ⟨"t0", 3, 3, 3, -6, [], []⟩

/-- Action card `ac0` of the shipped catalog. -/
def cardAc0 : Card :=
  Card.actionCard ⟨"ac0", CardTarget.PLAYER, false⟩ 0 "e0"

/-- Task card `tc0` of the shipped catalog. -/
def cardTc0 : Card :=
  Card.taskCard ⟨"tc0", CardTarget.OPPONENT, false⟩ "t0"

/-- A freshly constructed player, as `Player.__init__` builds one. -/
def freshPlayer (pid : Int) (name : String) (hoursInDay : Int) : Player :=
  ⟨pid, name, hoursInDay, 0, 0, [], [], []⟩

/-- A base game state with the shipped constants (`HAND_SIZE = 6`,
`DECK_SIZE = 50`, thresholds 100/−100, 16 default hours), the fixture
catalog, pids (1, 0) as for the first player, day 1, and empty lists. -/
def baseGame : Game where
  HAND_SIZE := 6
  DECK_SIZE := 50
  WIN_THRESHOLD := 100
  DEFEAT_THRESHOLD := -100
  DAYS_IN_TERM := 30
  HOURS_IN_DAY_DEFAULT := 16
  allEffects := [("e0", effE0)]
  allTasks := [("t0", taskT0)]
  allCards := [("ac0", cardAc0), ("tc0", cardTc0)]
  playerPid := 1
  opponentPid := 0
  player := freshPlayer 1 "player1" 16
  opponent := freshPlayer 0 "player2" 16
  day := 1
  playerTookCard := false
  opponentTookCard := false
  haveExams := false
  effects := []
  deck := []
  err := none

/-! Helper lemmas about the state accessors. -/

/-- Writing a player slot and reading the same slot back gives the written
player, whichever underlying field the pid selects. -/
theorem playerOf_setPlayerOf_same (g : Game) (pid : Int) (p : Player) :
    (g.setPlayerOf pid p).playerOf pid = p := by
  unfold Game.setPlayerOf Game.playerOf
  split <;> simp_all

/-- `setPlayerOf` only touches the `player`/`opponent` fields: `day` kept. -/
theorem setPlayerOf_day (g : Game) (pid : Int) (p : Player) :
    (g.setPlayerOf pid p).day = g.day := by
  unfold Game.setPlayerOf
  split <;> rfl

/-- `setPlayerOf` keeps the catalog of cards. -/
theorem setPlayerOf_allCards (g : Game) (pid : Int) (p : Player) :
    (g.setPlayerOf pid p).allCards = g.allCards := by
  unfold Game.setPlayerOf
  split <;> rfl

/-- `setPlayerOf` keeps the catalog of effects. -/
theorem setPlayerOf_allEffects (g : Game) (pid : Int) (p : Player) :
    (g.setPlayerOf pid p).allEffects = g.allEffects := by
  unfold Game.setPlayerOf
  split <;> rfl

/-- `setPlayerOf` keeps the catalog of tasks. -/
theorem setPlayerOf_allTasks (g : Game) (pid : Int) (p : Player) :
    (g.setPlayerOf pid p).allTasks = g.allTasks := by
  unfold Game.setPlayerOf
  split <;> rfl

/-- `setPlayerOf` keeps the global effect list. -/
theorem setPlayerOf_effects (g : Game) (pid : Int) (p : Player) :
    (g.setPlayerOf pid p).effects = g.effects := by
  unfold Game.setPlayerOf
  split <;> rfl

/-- `setPlayerOf` keeps the pending-exception marker. -/
theorem setPlayerOf_err (g : Game) (pid : Int) (p : Player) :
    (g.setPlayerOf pid p).err = g.err := by
  unfold Game.setPlayerOf
  split <;> rfl

/-- Two consecutive writes to the same player slot collapse to the last. -/
theorem setPlayerOf_setPlayerOf_same (g : Game) (pid : Int) (p q : Player) :
    (g.setPlayerOf pid p).setPlayerOf pid q = g.setPlayerOf pid q := by
  by_cases h : pid = g.playerPid <;> simp [Game.setPlayerOf, h]

/-- Writing one slot and reading any slot: any projection the write keeps
is read back unchanged. -/
theorem playerOf_setPlayerOf_proj {β : Type} (f : Player → β) (g : Game)
    (pid q : Int) (p : Player) (hp : f p = f (g.playerOf pid)) :
    f ((g.setPlayerOf pid p).playerOf q) = f (g.playerOf q) := by
  unfold Game.setPlayerOf Game.playerOf at *
  by_cases h1 : pid = g.playerPid <;> by_cases h2 : q = g.playerPid <;> simp_all

/-- Raising an exception changes no hand, no spent hours, no effect list. -/
theorem raiseErr_keeps (g : Game) (q : Int) (e : GErr) :
    ((g.raiseErr e).playerOf q).hand = (g.playerOf q).hand ∧
    ((g.raiseErr e).playerOf q).spentHoursToday = (g.playerOf q).spentHoursToday ∧
    ((g.raiseErr e).playerOf q).effects = (g.playerOf q).effects ∧
    (g.raiseErr e).effects = g.effects := by
  unfold Game.raiseErr
  split <;> exact ⟨rfl, rfl, rfl, rfl⟩

/-- A single event never changes any hand, any spent-hours counter or any
effect list (personal or global): "special task" appends a deadline,
"add hours" changes `hoursToday`, other kinds are no-ops. -/
theorem eventStep_keeps (g : Game) (pid q : Int) (ev : Event) :
    ((g.eventStep pid ev).playerOf q).hand = (g.playerOf q).hand ∧
    ((g.eventStep pid ev).playerOf q).spentHoursToday = (g.playerOf q).spentHoursToday ∧
    ((g.eventStep pid ev).playerOf q).effects = (g.playerOf q).effects ∧
    (g.eventStep pid ev).effects = g.effects := by
  unfold Game.eventStep
  split
  · exact ⟨rfl, rfl, rfl, rfl⟩
  split
  · split
    · unfold Game.takeSpecialTask Game.appendDeadline
      split
      · exact raiseErr_keeps _ _ _
      · exact ⟨playerOf_setPlayerOf_proj (fun p => p.hand) _ _ _ _ rfl,
          playerOf_setPlayerOf_proj (fun p => p.spentHoursToday) _ _ _ _ rfl,
          playerOf_setPlayerOf_proj (fun p => p.effects) _ _ _ _ rfl,
          setPlayerOf_effects _ _ _⟩
    · exact raiseErr_keeps _ _ _
    · exact raiseErr_keeps _ _ _
  split
  · split
    · exact ⟨playerOf_setPlayerOf_proj (fun p => p.hand) _ _ _ _ rfl,
        playerOf_setPlayerOf_proj (fun p => p.spentHoursToday) _ _ _ _ rfl,
        playerOf_setPlayerOf_proj (fun p => p.effects) _ _ _ _ rfl,
        setPlayerOf_effects _ _ _⟩
    · exact raiseErr_keeps _ _ _
    · exact raiseErr_keeps _ _ _
  · exact ⟨rfl, rfl, rfl, rfl⟩

/-- Activating any list of events changes no hand, no spent-hours counter
and no effect list. -/
theorem events_keeps (evs : List Event) (g : Game) (pid q : Int) :
    ((g.events evs pid).playerOf q).hand = (g.playerOf q).hand ∧
    ((g.events evs pid).playerOf q).spentHoursToday = (g.playerOf q).spentHoursToday ∧
    ((g.events evs pid).playerOf q).effects = (g.playerOf q).effects ∧
    (g.events evs pid).effects = g.effects := by
  induction evs generalizing g with
  | nil => exact ⟨rfl, rfl, rfl, rfl⟩
  | cons ev tl ih =>
    obtain ⟨i1, i2, i3, i4⟩ := ih (g.eventStep pid ev)
    obtain ⟨e1, e2, e3, e4⟩ := eventStep_keeps g pid q ev
    exact ⟨i1.trans e1, i2.trans e2, i3.trans e3, i4.trans e4⟩

/-! Claim C5. -/

/-- C5, counterexample: the code's "add hours" handler clamps only from
above.  Applying a delta of −20 to a player with 16 hours leaves
`hours_today = -4`, which is negative — the claim's lower clamp to 0 does
not exist in the code. -/
theorem c5_counterexample :
    ((baseGame.eventStep 1 ("add hours", [Val.i (-20)])).playerOf 1).hoursToday = -4 ∧
    ¬ (0 ≤ ((baseGame.eventStep 1 ("add hours", [Val.i (-20)])).playerOf 1).hoursToday) := by
  decide

/-- C5 as amended: applying an "add hours" event with signed delta `d` sets
the player's `hoursToday` to `min (old + d) HOURS_IN_DAY_MAX` — clamped from
above only, so the result never exceeds `HOURS_IN_DAY_MAX`, but a negative
delta can drive it below 0. -/
theorem addHours_clamps_above (g : Game) (pid : Int) (delta : Int)
    (hg : g.err = none) :
    ((g.eventStep pid ("add hours", [Val.i delta])).playerOf pid).hoursToday
        = min ((g.playerOf pid).hoursToday + delta) HOURS_IN_DAY_MAX ∧
    ((g.eventStep pid ("add hours", [Val.i delta])).playerOf pid).hoursToday
        ≤ HOURS_IN_DAY_MAX := by
  unfold Game.eventStep
  rw [hg]
  simp only [Option.isSome_none, Bool.false_eq_true, if_false, if_true]
  rw [if_neg (show ¬ ("add hours" : String) = "special task" by decide)]
  rw [playerOf_setPlayerOf_same]
  dsimp only
  constructor
  · split <;> simp [min_def] <;> omega
  · split <;> omega

/-- C5 amended. witness at a concrete input: delta 6 on 16 hours gives 22. -/
theorem addHours_clamps_above_witness :
    baseGame.err = none ∧
    ((baseGame.eventStep 1 ("add hours", [Val.i 6])).playerOf 1).hoursToday
        = min ((baseGame.playerOf 1).hoursToday + 6) HOURS_IN_DAY_MAX :=
  ⟨rfl, (addHours_clamps_above baseGame 1 6 rfl).1⟩

/-! Claim C7. -/

/-- Game state for the C7 counterexample: one card in the deck, empty hand,
but the player already took a card today. -/
def c7Game : Game :=
  { baseGame with deck := ["ac0"], playerTookCard := true }

/-- C7, counterexample: with a non-empty deck and a hand below the limit,
`_can_take_card` still fails because of the daily-limit condition, which the
claim does not allow. -/
theorem c7_counterexample :
    c7Game.deck.length ≠ 0 ∧
    (c7Game.playerOf 1).hand.length < c7Game.HAND_SIZE ∧
    (c7Game.canTakeCard 1).res = false ∧
    (c7Game.canTakeCard 1).msg = some "You have reached the daily limit!" := by
  decide

/-- C7 as amended: `canTakeCard` succeeds exactly when the deck is
non-empty, the actor's hand is below the limit, AND the daily-limit
condition is false — the latter transcribed from the source, whose second
disjunct compares the actor pid with the boolean `_opponent_took_card`
(so it misfires for pid 1 whenever the opponent took a card).  On failure a
reason message is always present. -/
theorem canTakeCard_characterization (g : Game) (a : Int) :
    ((g.canTakeCard a).res = true ↔
      (g.deck.length ≠ 0 ∧ (g.playerOf a).hand.length < g.HAND_SIZE ∧
        ¬ ((a = g.playerPid ∧ g.playerTookCard) ∨
           (a = (if g.opponentTookCard then (1 : Int) else 0) ∧ g.opponentTookCard)))) ∧
    (g.canTakeCard a).msg.isSome = ! (g.canTakeCard a).res := by
  unfold Game.canTakeCard
  by_cases h1 : g.deck.length = 0
  · rw [if_pos h1]
    simp [h1]
  · rw [if_neg h1]
    by_cases h2 : (g.playerOf a).hand.length ≥ g.HAND_SIZE
    · rw [if_pos h2]
      have h2x : ¬ (g.playerOf a).hand.length < g.HAND_SIZE := by omega
      simp [h1, h2x]
    · rw [if_neg h2]
      have h2x : (g.playerOf a).hand.length < g.HAND_SIZE := by omega
      by_cases h3 : (a = g.playerPid ∧ g.playerTookCard) ∨
          (a = (if g.opponentTookCard then (1 : Int) else 0) ∧ g.opponentTookCard)
      · rw [if_pos h3]
        simp [h1, h2x, h3]
      · rw [if_neg h3]
        simp [h1, h2x, h3]

/-! Claim C8. -/

/-- A deadline over a difficulty-1 task, issued on day 1. -/
def deadlineC8 : Deadline :=
  Deadline.create ⟨"t", 1, 3, 1, 0, [], []⟩ 1

/-- The same deadline after one hour of work (complete). -/
def deadlineC8done : Deadline :=
  { deadlineC8 with progress := 1 }

/-- C8, counterexample: completing a difficulty-1 deadline returns `True`,
and a subsequent zero-hour call also succeeds (0 ≤ remaining 0) and returns
`True` again — so across a sequence of successful calls `True` is not
returned exactly once. -/
theorem c8_counterexample :
    deadlineC8.work 1 = some (true, deadlineC8done) ∧
    deadlineC8done.work 0 = some (true, deadlineC8done) := by
  decide

/-- Helper for C8: over any sequence of successful `work` calls with
positive hours, starting strictly below the difficulty, `True` is returned
exactly once if the sequence completes the task and never otherwise. -/
theorem runWork_count (hs : List Int) :
    ∀ (d d' : Deadline) (c : Nat),
      (∀ h ∈ hs, 1 ≤ h) →
      d.progress < d.task.difficulty →
      runWork d hs = some (d', c) →
      c = if d'.progress = d.task.difficulty then 1 else 0 := by
  induction hs with
  | nil =>
    intro d d' c _ hstart hrun
    unfold runWork at hrun
    rw [Option.some.injEq, Prod.mk.injEq] at hrun
    obtain ⟨rfl, rfl⟩ := hrun
    rw [if_neg (by omega)]
  | cons h t ih =>
    intro d d' c hpos hstart hrun
    have hh : 1 ≤ h := hpos h (by simp)
    cases hw : d.work h with
    | none =>
      unfold runWork at hrun
      rw [hw] at hrun
      simp at hrun
    | some bd =>
      obtain ⟨b, dmid⟩ := bd
      -- unpack what the successful work call did
      have hle : h ≤ d.getRemHours := by
        by_contra hgt
        unfold Deadline.work at hw
        rw [if_neg hgt] at hw
        exact Option.noConfusion hw
      have hgr : d.getRemHours = d.task.difficulty - d.progress := rfl
      have hbd : b = decide (d.task.difficulty - (d.progress + h) = 0) ∧
          dmid = { d with progress := d.progress + h } := by
        unfold Deadline.work at hw
        rw [if_pos hle] at hw
        rw [Option.some.injEq, Prod.mk.injEq] at hw
        exact ⟨hw.1.symm, hw.2.symm⟩
      obtain ⟨hb, hdm⟩ := hbd
      subst hdm
      unfold runWork at hrun
      rw [hw] at hrun
      simp only at hrun
      cases t with
      | nil =>
        simp only [runWork] at hrun
        rw [Option.some.injEq, Prod.mk.injEq] at hrun
        obtain ⟨rfl, hc⟩ := hrun
        rw [← hc, hb]
        simp only [decide_eq_true_eq]
        dsimp only
        split_ifs <;> omega
      | cons h2 t2 =>
        cases hr2 : runWork { d with progress := d.progress + h } (h2 :: t2) with
        | none =>
          rw [hr2] at hrun
          simp at hrun
        | some v =>
          obtain ⟨df, c0⟩ := v
          rw [hr2] at hrun
          simp only at hrun
          rw [Option.some.injEq, Prod.mk.injEq] at hrun
          obtain ⟨rfl, hc⟩ := hrun
          -- the first call of the tail must also succeed, hence not complete yet
          have hle2 : h2 ≤ d.task.difficulty - (d.progress + h) := by
            by_contra hgt
            unfold runWork at hr2
            unfold Deadline.work at hr2
            rw [if_neg (show ¬ h2 ≤
              ({ d with progress := d.progress + h } : Deadline).getRemHours from hgt)] at hr2
            simp at hr2
          have hh2 : 1 ≤ h2 := hpos h2 (by simp)
          have hb2 : b = false := by
            rw [hb]
            exact decide_eq_false (by omega)
          have hrec := ih { d with progress := d.progress + h } df c0
            (fun x hx => hpos x (by simp [hx]))
            (show d.progress + h < d.task.difficulty by omega) hr2
          have hrec2 : c0 = if df.progress = d.task.difficulty then 1 else 0 := hrec
          rw [← hc, hb2]
          simp only [Bool.false_eq_true, if_false, Nat.add_zero]
          exact hrec2


/-- C8 as amended: `work(hours)` with `hours` exceeding the remaining hours
fails (raises) without mutating `progress`; with `hours ≤ remaining` it adds
`hours` to `progress` and returns `True` exactly when `progress` then equals
`task.difficulty`; and across any sequence of successful calls with
*positive* hours, `True` is returned exactly once, on the completing call —
the original "exactly once" fails for zero-hour calls on an
already-complete deadline (see the counterexample). -/
theorem work_characterization (d : Deadline) (hours : Int) (hs : List Int)
    (d' : Deadline) (c : Nat)
    (hpos : ∀ h ∈ hs, 1 ≤ h)
    (hstart : d.progress < d.task.difficulty)
    (hrun : runWork d hs = some (d', c)) :
    (d.getRemHours < hours → d.work hours = none) ∧
    (hours ≤ d.getRemHours →
      d.work hours = some (decide (d.progress + hours = d.task.difficulty),
        { d with progress := d.progress + hours })) ∧
    c = if d'.progress = d.task.difficulty then 1 else 0 := by
  refine ⟨?_, ?_, runWork_count hs d d' c hpos hstart hrun⟩
  · intro hgt
    unfold Deadline.work
    rw [if_neg (show ¬ hours ≤ d.getRemHours by omega)]
  · intro hle
    unfold Deadline.work
    rw [if_pos hle]
    dsimp only
    have hiff : (({ d with progress := d.progress + hours } : Deadline).getRemHours = 0) ↔
        (d.progress + hours = d.task.difficulty) := by
      unfold Deadline.getRemHours
      dsimp only
      omega
    rw [decide_eq_decide.mpr hiff]

/-- C8 amended, witness: difficulty-1 deadline, the single-call sequence
`[1]` completes it and returns `True` exactly once. -/
theorem work_characterization_witness :
    (∀ h ∈ [(1 : Int)], 1 ≤ h) ∧
    deadlineC8.progress < deadlineC8.task.difficulty ∧
    runWork deadlineC8 [1] = some (deadlineC8done, 1) ∧
    1 = if deadlineC8done.progress = deadlineC8.task.difficulty then 1 else 0 :=
  ⟨by decide, by decide, by decide,
    (work_characterization deadlineC8 2 [1] deadlineC8done 1 (by decide) (by decide)
      (by decide)).2.2⟩

/-! Claim C6. -/

/-- C6: dealing gives the pid-1 player the first `HAND_SIZE` deck cards and
the pid-0 player the next `HAND_SIZE`, each in original relative order
(whichever of the two `Game` slots carries which pid); the two hands and
the remaining deck are consecutive disjoint segments whose concatenation is
the original deck, and the deck afterwards is the original with its first
`2 * HAND_SIZE` entries removed (length `N − 2H` when `2H ≤ N`). -/
theorem dealCards_spec (g : Game)
    (hpid : (g.playerPid = 1 ∧ g.opponentPid = 0) ∨ (g.playerPid = 0 ∧ g.opponentPid = 1))
    (h1 : (g.playerOf 1).hand = [])
    (h0 : (g.playerOf 0).hand = []) :
    ((g.dealCards).playerOf 1).hand = g.deck.take g.HAND_SIZE ∧
    ((g.dealCards).playerOf 0).hand = (g.deck.drop g.HAND_SIZE).take g.HAND_SIZE ∧
    (g.dealCards).deck = g.deck.drop (2 * g.HAND_SIZE) ∧
    ((g.dealCards).playerOf 1).hand ++ ((g.dealCards).playerOf 0).hand ++
      (g.dealCards).deck = g.deck ∧
    (2 * g.HAND_SIZE ≤ g.deck.length →
      (g.dealCards).deck.length = g.deck.length - 2 * g.HAND_SIZE) := by
  have hcat : g.deck.take g.HAND_SIZE ++ ((g.deck.drop g.HAND_SIZE).take g.HAND_SIZE ++
      g.deck.drop (2 * g.HAND_SIZE)) = g.deck := by
    rw [two_mul, ← List.drop_drop, List.take_append_drop, List.take_append_drop]
  obtain ⟨ha, hb⟩ | ⟨ha, hb⟩ := hpid <;>
    unfold Game.dealCards Game.playerOf Game.setPlayerOf Player.takeCardsFromDeck at * <;>
    simp [ha, hb] at h1 h0 ⊢ <;>
    simp [h1, h0, hcat, List.length_drop]

/-- A four-card deck with hand size 1, for the C6 witness. -/
def c6Game : Game :=
  { baseGame with HAND_SIZE := 1, deck := ["a", "b", "c", "d"] }

/-- C6, witness: a four-card deck with hand size 1. -/
theorem dealCards_spec_witness :
    ((c6Game.playerPid = 1 ∧ c6Game.opponentPid = 0) ∨
      (c6Game.playerPid = 0 ∧ c6Game.opponentPid = 1)) ∧
    (c6Game.playerOf 1).hand = [] ∧
    (c6Game.playerOf 0).hand = [] ∧
    ((c6Game.dealCards).playerOf 1).hand = c6Game.deck.take c6Game.HAND_SIZE :=
  ⟨by decide, by decide, by decide,
    (dealCards_spec c6Game (by decide) (by decide) (by decide)).1⟩

/-! Claim C9. -/

/-- C9: the snapshot reveals only the opponent's hand size.  Two game states
that differ only in which card ids make up the opponent's hand, the length
being equal, produce identical snapshots. -/
theorem getGameInfo_hides_opponent_hand (g : Game) (h2 : List String)
    (hlen : h2.length = g.opponent.hand.length) :
    Game.getGameInfo { g with opponent := { g.opponent with hand := h2 } } =
      g.getGameInfo := by
  unfold Game.getGameInfo Game.eidsToEffects Game.cidsToCards Player.freeHours
  simp [hlen]

/-- An opponent holding one concrete card, for the C9 witness. -/
def c9Game : Game :=
  { baseGame with opponent := { baseGame.opponent with hand := ["ac0"] } }

/-- C9, witness: swapping the opponent's one-card hand from "ac0" to "tc0"
leaves the snapshot unchanged. -/
theorem getGameInfo_hides_opponent_hand_witness :
    (["tc0"] : List String).length = c9Game.opponent.hand.length ∧
    Game.getGameInfo { c9Game with opponent := { c9Game.opponent with hand := ["tc0"] } } =
      c9Game.getGameInfo :=
  ⟨by decide, getGameInfo_hides_opponent_hand c9Game ["tc0"] (by decide)⟩

/-! Claims C3 and C10: how `_use_card` executes. -/

/-- Hand after a write that keeps the written player's hand. -/
theorem playerOf_setPlayerOf_hand (g : Game) (pid q : Int) (p : Player)
    (hp : p.hand = (g.playerOf pid).hand) :
    ((g.setPlayerOf pid p).playerOf q).hand = (g.playerOf q).hand :=
  playerOf_setPlayerOf_proj (fun p => p.hand) g pid q p hp

/-- Spent hours after a write that keeps the written player's spent hours. -/
theorem playerOf_setPlayerOf_spent (g : Game) (pid q : Int) (p : Player)
    (hp : p.spentHoursToday = (g.playerOf pid).spentHoursToday) :
    ((g.setPlayerOf pid p).playerOf q).spentHoursToday =
      (g.playerOf q).spentHoursToday :=
  playerOf_setPlayerOf_proj (fun p => p.spentHoursToday) g pid q p hp

/-- Personal effect lists after a write that keeps the written player's. -/
theorem playerOf_setPlayerOf_peffects (g : Game) (pid q : Int) (p : Player)
    (hp : p.effects = (g.playerOf pid).effects) :
    ((g.setPlayerOf pid p).playerOf q).effects = (g.playerOf q).effects :=
  playerOf_setPlayerOf_proj (fun p => p.effects) g pid q p hp

/-- Deadline lists after a write that keeps the written player's. -/
theorem playerOf_setPlayerOf_deadlines (g : Game) (pid q : Int) (p : Player)
    (hp : p.deadlines = (g.playerOf pid).deadlines) :
    ((g.setPlayerOf pid p).playerOf q).deadlines = (g.playerOf q).deadlines :=
  playerOf_setPlayerOf_proj (fun p => p.deadlines) g pid q p hp

/-- Daily hours after a write that keeps the written player's. -/
theorem playerOf_setPlayerOf_hours (g : Game) (pid q : Int) (p : Player)
    (hp : p.hoursToday = (g.playerOf pid).hoursToday) :
    ((g.setPlayerOf pid p).playerOf q).hoursToday = (g.playerOf q).hoursToday :=
  playerOf_setPlayerOf_proj (fun p => p.hoursToday) g pid q p hp

/-- Updating the global effect list leaves every player slot unchanged. -/
theorem playerOf_effectsUpdate (g : Game) (e : List (Int × String)) (q : Int) :
    ({ g with effects := e }).playerOf q = g.playerOf q := rfl

/-- Appending a global effect leaves every player slot unchanged. -/
theorem appendGlobalEffect_playerOf (g : Game) (e : Int × String) (q : Int) :
    ((g.appendGlobalEffect e).playerOf q) = g.playerOf q := rfl

/-- Appending a global effect appends to the global list. -/
theorem appendGlobalEffect_effects (g : Game) (e : Int × String) :
    (g.appendGlobalEffect e).effects = g.effects ++ [e] := rfl

/-- Appending a global effect keeps the effect catalog. -/
theorem appendGlobalEffect_allEffects (g : Game) (e : Int × String) :
    (g.appendGlobalEffect e).allEffects = g.allEffects := rfl

/-- Appending a personal effect keeps the effect catalog. -/
theorem appendPlayerEffect_allEffects (g : Game) (pid : Int) (e : Int × String) :
    (g.appendPlayerEffect pid e).allEffects = g.allEffects := by
  unfold Game.appendPlayerEffect
  exact setPlayerOf_allEffects _ _ _

/-- Appending a personal effect appends to that player's effect list. -/
theorem appendPlayerEffect_peffects_self (g : Game) (pid : Int) (e : Int × String) :
    ((g.appendPlayerEffect pid e).playerOf pid).effects =
      (g.playerOf pid).effects ++ [e] := by
  unfold Game.appendPlayerEffect
  rw [playerOf_setPlayerOf_same]

/-- Appending a personal effect changes nobody's hand. -/
theorem appendPlayerEffect_hand (g : Game) (pid q : Int) (e : Int × String) :
    ((g.appendPlayerEffect pid e).playerOf q).hand = (g.playerOf q).hand := by
  unfold Game.appendPlayerEffect
  exact playerOf_setPlayerOf_hand _ _ _ _ rfl

/-- Appending a personal effect changes nobody's spent hours. -/
theorem appendPlayerEffect_spent (g : Game) (pid q : Int) (e : Int × String) :
    ((g.appendPlayerEffect pid e).playerOf q).spentHoursToday =
      (g.playerOf q).spentHoursToday := by
  unfold Game.appendPlayerEffect
  exact playerOf_setPlayerOf_spent _ _ _ _ rfl

/-- Appending a personal effect changes nobody's deadlines. -/
theorem appendPlayerEffect_deadlines (g : Game) (pid q : Int) (e : Int × String) :
    ((g.appendPlayerEffect pid e).playerOf q).deadlines =
      (g.playerOf q).deadlines := by
  unfold Game.appendPlayerEffect
  exact playerOf_setPlayerOf_deadlines _ _ _ _ rfl

/-- Appending a personal effect leaves the global effect list unchanged. -/
theorem appendPlayerEffect_geffects (g : Game) (pid : Int) (e : Int × String) :
    (g.appendPlayerEffect pid e).effects = g.effects := by
  unfold Game.appendPlayerEffect
  exact setPlayerOf_effects _ _ _

/-- Appending a deadline appends to that player's deadline list. -/
theorem appendDeadline_deadlines_self (g : Game) (pid : Int) (d : Deadline) :
    ((g.appendDeadline pid d).playerOf pid).deadlines =
      (g.playerOf pid).deadlines ++ [d] := by
  unfold Game.appendDeadline
  rw [playerOf_setPlayerOf_same]

/-- Appending a deadline changes nobody's hand. -/
theorem appendDeadline_hand (g : Game) (pid q : Int) (d : Deadline) :
    ((g.appendDeadline pid d).playerOf q).hand = (g.playerOf q).hand := by
  unfold Game.appendDeadline
  exact playerOf_setPlayerOf_hand _ _ _ _ rfl

/-- Appending a deadline changes nobody's spent hours. -/
theorem appendDeadline_spent (g : Game) (pid q : Int) (d : Deadline) :
    ((g.appendDeadline pid d).playerOf q).spentHoursToday =
      (g.playerOf q).spentHoursToday := by
  unfold Game.appendDeadline
  exact playerOf_setPlayerOf_spent _ _ _ _ rfl

/-- Appending a deadline changes nobody's daily hours. -/
theorem appendDeadline_hours (g : Game) (pid q : Int) (d : Deadline) :
    ((g.appendDeadline pid d).playerOf q).hoursToday = (g.playerOf q).hoursToday := by
  unfold Game.appendDeadline
  exact playerOf_setPlayerOf_hours _ _ _ _ rfl

/-- Appending a deadline changes nobody's effect list. -/
theorem appendDeadline_peffects (g : Game) (pid q : Int) (d : Deadline) :
    ((g.appendDeadline pid d).playerOf q).effects = (g.playerOf q).effects := by
  unfold Game.appendDeadline
  exact playerOf_setPlayerOf_peffects _ _ _ _ rfl

/-- Appending a deadline leaves the global effect list unchanged. -/
theorem appendDeadline_geffects (g : Game) (pid : Int) (d : Deadline) :
    (g.appendDeadline pid d).effects = g.effects := by
  unfold Game.appendDeadline
  exact setPlayerOf_effects _ _ _

/-- Helper: a successful pop determines the index bound and the new player. -/
theorem useCard_pop_eq (p : Player) (i : Nat) (cid : String) (pA : Player)
    (hpop : p.useCard i = some (cid, pA)) :
    i < p.hand.length ∧ pA = { p with hand := p.hand.eraseIdx i } := by
  unfold Player.useCard at hpop
  by_cases hidx : i < p.hand.length
  · rw [dif_pos hidx] at hpop
    rw [Option.some.injEq, Prod.mk.injEq] at hpop
    exact ⟨hidx, hpop.2.symm⟩
  · rw [dif_neg hidx] at hpop
    exact Option.noConfusion hpop

/-- Helper: full reduction of `_use_card` on an affordable ActionCard whose
effect exists in the catalog, mirroring the source's branch structure. -/
theorem useCard_action_reduce (g : Game) (a t : Int) (i : Nat) (cid : String)
    (pA : Player) (base : CardBase) (cost : Int) (action : String) (eff : Effect)
    (hgerr : g.err = none)
    (hpop : (g.playerOf a).useCard i = some (cid, pA))
    (hcard : g.allCards.lookup cid = some (Card.actionCard base cost action))
    (hcost : cost ≤ (g.playerOf a).freeHours)
    (heff : g.allEffects.lookup action = some eff) :
    g.useCard a i t =
      (let g1 := g.setPlayerOf a { pA with spentHoursToday := pA.spentHoursToday + cost };
       if base.validTarget = CardTarget.GLOBAL then
         (let g2 := g1.appendGlobalEffect (g.day, action);
          if eff.delay = 0 then g2.events eff.initEvents a else g2)
       else
         (let g2 := g1.appendPlayerEffect t (g.day, action);
          if eff.delay = 0 then g2.events eff.initEvents a else g2)) := by
  obtain ⟨hidx, hpA⟩ := useCard_pop_eq _ _ _ _ hpop
  have hfreeA : pA.freeHours = (g.playerOf a).freeHours := by
    rw [hpA]
    rfl
  have hspend : pA.spendTime cost =
      some { pA with spentHoursToday := pA.spentHoursToday + cost } := by
    unfold Player.spendTime
    rw [if_pos (show cost ≤ pA.freeHours by rw [hfreeA]; exact hcost)]
  have hcanuse : (g.setPlayerOf a pA).canUseCard a cid = some ⟨true, none⟩ := by
    simp only [Game.canUseCard, setPlayerOf_allCards, hcard, playerOf_setPlayerOf_same]
    rw [if_neg (show ¬ pA.freeHours < cost by rw [hfreeA]; omega)]
  simp only [Game.useCard, hgerr, Option.isSome_none, Bool.false_eq_true, if_false,
    hpop, hcanuse, setPlayerOf_allCards, hcard, playerOf_setPlayerOf_same, hspend,
    setPlayerOf_setPlayerOf_same, appendGlobalEffect_allEffects,
    appendPlayerEffect_allEffects, setPlayerOf_allEffects, heff, setPlayerOf_day,
    setPlayerOf_effects]
  rw [if_neg (show ¬ (true = false) by decide)]

/-- Helper: full reduction of `_use_card` on a non-global TaskCard whose
task exists in the catalog. -/
theorem useCard_task_reduce (g : Game) (a t : Int) (i : Nat) (cid : String)
    (pA : Player) (base : CardBase) (task : String) (tk : Task)
    (hgerr : g.err = none)
    (hpop : (g.playerOf a).useCard i = some (cid, pA))
    (hcard : g.allCards.lookup cid = some (Card.taskCard base task))
    (hglob : ¬ base.validTarget = CardTarget.GLOBAL)
    (htk : g.allTasks.lookup task = some tk) :
    g.useCard a i t =
      (g.setPlayerOf a pA).appendDeadline t (Deadline.create tk g.day) := by
  have hcanuse : (g.setPlayerOf a pA).canUseCard a cid = some ⟨true, none⟩ := by
    simp only [Game.canUseCard, setPlayerOf_allCards, hcard]
  simp only [Game.useCard, hgerr, Option.isSome_none, Bool.false_eq_true, if_false,
    hpop, hcanuse, setPlayerOf_allCards, hcard, setPlayerOf_allTasks, htk,
    setPlayerOf_day, hglob, if_false]
  rw [if_neg (show ¬ (true = false) by decide)]

/-- The player holds the coffee card, for the C3 counterexample. -/
def c3Game : Game :=
  { baseGame with player := { baseGame.player with hand := ["ac0"] } }

/-- C3, counterexample: playing the shipped coffee card `ac0` (ActionCard,
cost 0, effect `e0` with delay 0 whose init event adds 6 hours) against
oneself passes `canUseCard`, removes the card, but leaves the actor's free
hours at 22, not 16 − 0: the instant init events fire inside `useCard`, so
an ActionCard does not simply "decrease the spender's free hours by the
card's cost". -/
theorem c3_counterexample :
    c3Game.canUseCard 1 "ac0" = some ⟨true, none⟩ ∧
    (c3Game.playerOf 1).freeHours = 16 ∧
    (c3Game.useCard 1 0 1).err = none ∧
    ((c3Game.useCard 1 0 1).playerOf 1).hand.length = 0 ∧
    ((c3Game.useCard 1 0 1).playerOf 1).freeHours = 22 := by
  decide

/-- C3 as amended: for a successful pop and a passing `canUseCard`, with the
card an ActionCard (affordable, катalog effect present) or a non-global
TaskCard (catalog task present), `useCard` removes exactly one card from the
actor's hand and performs exactly one card-level operation: an ActionCard
adds the cost to the actor's `spentHoursToday` and appends the effect
(global list when GLOBAL, else the target's list) tagged with the current
day — and when the effect's delay is nonzero nobody's deadline list changes
(with delay 0 the init events may change more, see the counterexample); a
TaskCard appends one deadline to the target, anchored at the current day,
changing no hours and no effect list. -/
theorem useCard_spec (g : Game) (a t : Int) (i : Nat) (cid : String) (pA : Player)
    (card : Card)
    (hgerr : g.err = none)
    (hpop : (g.playerOf a).useCard i = some (cid, pA))
    (hcard : g.allCards.lookup cid = some card)
    (hact : ∀ base cost action, card = Card.actionCard base cost action →
      cost ≤ (g.playerOf a).freeHours ∧ (g.allEffects.lookup action).isSome)
    (htc : ∀ base task, card = Card.taskCard base task →
      base.validTarget ≠ CardTarget.GLOBAL ∧ (g.allTasks.lookup task).isSome) :
    ((g.useCard a i t).playerOf a).hand.length + 1 = (g.playerOf a).hand.length ∧
    (∀ base cost action, card = Card.actionCard base cost action →
      ((g.useCard a i t).playerOf a).spentHoursToday
          = (g.playerOf a).spentHoursToday + cost ∧
      (if base.validTarget = CardTarget.GLOBAL then
          (g.useCard a i t).effects = g.effects ++ [(g.day, action)]
        else
          ((g.useCard a i t).playerOf t).effects
            = (g.playerOf t).effects ++ [(g.day, action)]) ∧
      (∀ eff, g.allEffects.lookup action = some eff → ¬ eff.delay = 0 →
        ((g.useCard a i t).playerOf a).deadlines = (g.playerOf a).deadlines ∧
        ((g.useCard a i t).playerOf t).deadlines = (g.playerOf t).deadlines)) ∧
    (∀ base task, card = Card.taskCard base task →
      ∃ tk, g.allTasks.lookup task = some tk ∧
        ((g.useCard a i t).playerOf t).deadlines
            = (g.playerOf t).deadlines ++ [Deadline.create tk g.day] ∧
        ((g.useCard a i t).playerOf a).spentHoursToday
            = (g.playerOf a).spentHoursToday ∧
        ((g.useCard a i t).playerOf a).hoursToday = (g.playerOf a).hoursToday ∧
        (g.useCard a i t).effects = g.effects ∧
        ((g.useCard a i t).playerOf t).effects = (g.playerOf t).effects) := by
  obtain ⟨hidx, hpA⟩ := useCard_pop_eq _ _ _ _ hpop
  have hpAhand : pA.hand = (g.playerOf a).hand.eraseIdx i := by rw [hpA]
  have hpAspent : pA.spentHoursToday = (g.playerOf a).spentHoursToday := by rw [hpA]
  have hpAhours : pA.hoursToday = (g.playerOf a).hoursToday := by rw [hpA]
  have hpAeff : pA.effects = (g.playerOf a).effects := by rw [hpA]
  have hpAdl : pA.deadlines = (g.playerOf a).deadlines := by rw [hpA]
  cases card with
  | actionCard base cost action =>
    obtain ⟨hcost, hie⟩ := hact base cost action rfl
    obtain ⟨eff, heff⟩ := Option.isSome_iff_exists.mp hie
    have hred := useCard_action_reduce g a t i cid pA base cost action eff
      hgerr hpop hcard hcost heff
    dsimp only at hred
    have hcdl : ({ pA with spentHoursToday := pA.spentHoursToday + cost } : Player).deadlines
        = (g.playerOf a).deadlines := hpAdl
    have hceff : ({ pA with spentHoursToday := pA.spentHoursToday + cost } : Player).effects
        = (g.playerOf a).effects := hpAeff
    by_cases hg : base.validTarget = CardTarget.GLOBAL
    · rw [if_pos hg] at hred
      by_cases hd : eff.delay = 0
      · -- GLOBAL ActionCard, instant effect
        rw [if_pos hd] at hred
        refine ⟨?_, ?_, ?_⟩
        · rw [hred, (events_keeps _ _ _ _).1, appendGlobalEffect_playerOf,
            playerOf_setPlayerOf_same]
          show pA.hand.length + 1 = _
          rw [hpAhand]
          exact List.length_eraseIdx_add_one hidx
        · intro b2 c2 a2 heq
          injection heq with hb hc ha
          subst hb
          subst hc
          subst ha
          refine ⟨?_, ?_, ?_⟩
          · rw [hred, (events_keeps _ _ _ _).2.1, appendGlobalEffect_playerOf,
              playerOf_setPlayerOf_same]
            show pA.spentHoursToday + cost = _
            rw [hpAspent]
          · rw [if_pos hg, hred, (events_keeps _ _ _ a).2.2.2,
              appendGlobalEffect_effects, setPlayerOf_effects]
          · intro eff2 heff2 hne
            rw [heff] at heff2
            obtain rfl := Option.some.inj heff2
            exact absurd hd hne
        · intro b2 t2 heq
          exact Card.noConfusion heq
      · -- GLOBAL ActionCard, delayed effect
        rw [if_neg hd] at hred
        refine ⟨?_, ?_, ?_⟩
        · rw [hred, appendGlobalEffect_playerOf, playerOf_setPlayerOf_same]
          show pA.hand.length + 1 = _
          rw [hpAhand]
          exact List.length_eraseIdx_add_one hidx
        · intro b2 c2 a2 heq
          injection heq with hb hc ha
          subst hb
          subst hc
          subst ha
          refine ⟨?_, ?_, ?_⟩
          · rw [hred, appendGlobalEffect_playerOf, playerOf_setPlayerOf_same]
            show pA.spentHoursToday + cost = _
            rw [hpAspent]
          · rw [if_pos hg, hred, appendGlobalEffect_effects, setPlayerOf_effects]
          · intro eff2 heff2 hne
            constructor
            · rw [hred, appendGlobalEffect_playerOf,
                playerOf_setPlayerOf_deadlines _ _ _ _ hcdl]
            · rw [hred, appendGlobalEffect_playerOf,
                playerOf_setPlayerOf_deadlines _ _ _ _ hcdl]
        · intro b2 t2 heq
          exact Card.noConfusion heq
    · rw [if_neg hg] at hred
      by_cases hd : eff.delay = 0
      · -- targeted ActionCard, instant effect
        rw [if_pos hd] at hred
        refine ⟨?_, ?_, ?_⟩
        · rw [hred, (events_keeps _ _ _ _).1, appendPlayerEffect_hand,
            playerOf_setPlayerOf_same]
          show pA.hand.length + 1 = _
          rw [hpAhand]
          exact List.length_eraseIdx_add_one hidx
        · intro b2 c2 a2 heq
          injection heq with hb hc ha
          subst hb
          subst hc
          subst ha
          refine ⟨?_, ?_, ?_⟩
          · rw [hred, (events_keeps _ _ _ _).2.1, appendPlayerEffect_spent,
              playerOf_setPlayerOf_same]
            show pA.spentHoursToday + cost = _
            rw [hpAspent]
          · rw [if_neg hg, hred, (events_keeps _ _ _ _).2.2.1,
              appendPlayerEffect_peffects_self,
              playerOf_setPlayerOf_peffects _ _ _ _ hceff]
          · intro eff2 heff2 hne
            rw [heff] at heff2
            obtain rfl := Option.some.inj heff2
            exact absurd hd hne
        · intro b2 t2 heq
          exact Card.noConfusion heq
      · -- targeted ActionCard, delayed effect
        rw [if_neg hd] at hred
        refine ⟨?_, ?_, ?_⟩
        · rw [hred, appendPlayerEffect_hand, playerOf_setPlayerOf_same]
          show pA.hand.length + 1 = _
          rw [hpAhand]
          exact List.length_eraseIdx_add_one hidx
        · intro b2 c2 a2 heq
          injection heq with hb hc ha
          subst hb
          subst hc
          subst ha
          refine ⟨?_, ?_, ?_⟩
          · rw [hred, appendPlayerEffect_spent, playerOf_setPlayerOf_same]
            show pA.spentHoursToday + cost = _
            rw [hpAspent]
          · rw [if_neg hg, hred, appendPlayerEffect_peffects_self,
              playerOf_setPlayerOf_peffects _ _ _ _ hceff]
          · intro eff2 heff2 hne
            constructor
            · rw [hred, appendPlayerEffect_deadlines,
                playerOf_setPlayerOf_deadlines _ _ _ _ hcdl]
            · rw [hred, appendPlayerEffect_deadlines,
                playerOf_setPlayerOf_deadlines _ _ _ _ hcdl]
        · intro b2 t2 heq
          exact Card.noConfusion heq
  | taskCard base task =>
    obtain ⟨hglob, hts⟩ := htc base task rfl
    obtain ⟨tk, htk⟩ := Option.isSome_iff_exists.mp hts
    have hred := useCard_task_reduce g a t i cid pA base task tk
      hgerr hpop hcard hglob htk
    refine ⟨?_, ?_, ?_⟩
    · rw [hred, appendDeadline_hand, playerOf_setPlayerOf_same]
      rw [hpAhand]
      exact List.length_eraseIdx_add_one hidx
    · intro b2 c2 a2 heq
      exact Card.noConfusion heq
    · intro b2 t2 heq
      injection heq with hb ht2
      subst hb
      subst ht2
      refine ⟨tk, htk, ?_, ?_, ?_, ?_, ?_⟩
      · rw [hred, appendDeadline_deadlines_self,
          playerOf_setPlayerOf_deadlines _ _ _ _ hpAdl]
      · rw [hred, appendDeadline_spent,
          playerOf_setPlayerOf_spent _ _ _ _ hpAspent]
      · rw [hred, appendDeadline_hours,
          playerOf_setPlayerOf_hours _ _ _ _ hpAhours]
      · rw [hred, appendDeadline_geffects, setPlayerOf_effects]
      · rw [hred, appendDeadline_peffects,
          playerOf_setPlayerOf_peffects _ _ _ _ hpAeff]

/-- C3 amended, witness: the coffee-card game; the hand shrinks by one. -/
theorem useCard_spec_witness :
    c3Game.err = none ∧
    (c3Game.playerOf 1).useCard 0 = some ("ac0", freshPlayer 1 "player1" 16) ∧
    c3Game.allCards.lookup "ac0" = some cardAc0 ∧
    ((c3Game.useCard 1 0 1).playerOf 1).hand.length + 1 =
      (c3Game.playerOf 1).hand.length :=
  ⟨rfl, by decide, by decide,
    (useCard_spec c3Game 1 1 0 "ac0" (freshPlayer 1 "player1" 16) cardAc0 rfl
      (by decide) (by decide)
      (by
        intro base cost action heq
        unfold cardAc0 at heq
        injection heq with hb hc ha
        subst hb
        subst hc
        subst ha
        exact ⟨by decide, by decide⟩)
      (by
        intro base task heq
        unfold cardAc0 at heq
        exact Card.noConfusion heq)).1⟩

/-- C10: for a non-global ActionCard whose effect has delay 0, `useCard`
appends the effect to the TARGET player's effect list, but then fires the
effect's init events against the ACTOR (`self._events(effect.init_events,
actor_pid)` in the source), not against the target. -/
theorem useCard_delay0_fires_on_actor (g : Game) (a t : Int) (i : Nat)
    (cid : String) (pA : Player) (base : CardBase) (cost : Int) (action : String)
    (eff : Effect)
    (hgerr : g.err = none)
    (hpop : (g.playerOf a).useCard i = some (cid, pA))
    (hcard : g.allCards.lookup cid = some (Card.actionCard base cost action))
    (hglob : ¬ base.validTarget = CardTarget.GLOBAL)
    (hcost : cost ≤ (g.playerOf a).freeHours)
    (heff : g.allEffects.lookup action = some eff)
    (hdelay : eff.delay = 0) :
    g.useCard a i t =
      ((g.setPlayerOf a { pA with spentHoursToday := pA.spentHoursToday + cost
        }).appendPlayerEffect t (g.day, action)).events eff.initEvents a := by
  have hred := useCard_action_reduce g a t i cid pA base cost action eff
    hgerr hpop hcard hcost heff
  dsimp only at hred
  rw [hred, if_neg hglob, if_pos hdelay]

/-- C10, witness: the coffee card played by the actor (pid 1) against the
opponent (pid 0): the effect entry lands on pid 0's list while the add-hours
init event runs against pid 1. -/
theorem useCard_delay0_fires_on_actor_witness :
    c3Game.allCards.lookup "ac0" =
      some (Card.actionCard ⟨"ac0", CardTarget.PLAYER, false⟩ 0 "e0") ∧
    effE0.delay = 0 ∧
    c3Game.useCard 1 0 0 =
      ((c3Game.setPlayerOf 1
          { freshPlayer 1 "player1" 16 with
              spentHoursToday := (freshPlayer 1 "player1" 16).spentHoursToday + 0
          }).appendPlayerEffect 0 (c3Game.day, "e0")).events effE0.initEvents 1 :=
  ⟨by decide, by decide,
    useCard_delay0_fires_on_actor c3Game 1 0 0 "ac0" (freshPlayer 1 "player1" 16)
      ⟨"ac0", CardTarget.PLAYER, false⟩ 0 "e0" effE0 rfl (by decide) (by decide)
      (by decide) (by decide) (by decide) rfl⟩

/-! Claim C1. -/

/-- A deadline on task `t0` issued on day 1, so due on day 4. -/
def dlT0 : Deadline :=
  Deadline.create taskT0 1

/-- Day 4 with two identical never-worked deadlines, both due today. -/
def c1Game : Game :=
  { baseGame with
      day := 4
      player := { baseGame.player with deadlines := [dlT0, dlT0] } }

/-- C1, evaluation at the failing input: with two deadlines both due on the
current day, `turn_begin` resolves and removes only the FIRST — the
`for idx, deadline in enumerate(...)` loop pops index 0 and then continues
at index 1 of the shrunk one-element list, skipping the second deadline.
Only one penalty (−6) is scored, and on the following round (day 5) the
survivor's `deadline == day` test never holds again, so it is never resolved
at all; the game just continues. -/
theorem c1_skipped_deadline_eval :
    (c1Game.turnBegin).player.score = -6 ∧
    (c1Game.turnBegin).player.deadlines = [dlT0] ∧
    (c1Game.turnBegin).err = none ∧
    ((c1Game.turnBegin).turnEnd).2 = some "game continues" ∧
    (((c1Game.turnBegin).turnEnd).1.turnBegin).player.deadlines = [dlT0] ∧
    (((c1Game.turnBegin).turnEnd).1.turnBegin).player.score = -6 := by
  decide

/-! Claim C2. -/

/-- Everything exhausted, but the scores differ and the player's 150 is far
above the win threshold of 100. -/
def c2Game : Game :=
  { baseGame with player := { baseGame.player with score := 150 } }

/-- C2, evaluation at the failing input: with deck, hands, deadlines and all
effect lists empty, `turn_end` reaches the draw block, whose comparison
`self._player.score == self._player.score` is always true, and returns
"draw" even though the player's 150 exceeds the win threshold 100 and the
opponent has 0. -/
theorem c2_draw_selfcompare_eval :
    c2Game.player.score = 150 ∧
    c2Game.opponent.score = 0 ∧
    c2Game.WIN_THRESHOLD = 100 ∧
    (c2Game.turnEnd).2 = some "draw" := by
  decide

/-! Claim C4. -/

/-- The player has 10 free hours (16 − 6 spent) and one deadline with 3
remaining hours. -/
def c4Game : Game :=
  { baseGame with
      player := { baseGame.player with spentHoursToday := 6, deadlines := [dlT0] } }

/-- C4, evaluation at the failing input: spending 5 hours on a deadline with
only 3 remaining makes `can_spend_time` fail, but `_spend_time`'s
re-validation asserts the dict itself (the `['res']` subscript is missing),
so `Player.spend_time` runs — `spent_hours_today` goes from 6 to 11 — before
`Deadline.work`'s assert raises.  The call raises, yet the state is mutated. -/
theorem c4_mutation_before_raise_eval :
    c4Game.canSpendTime 1 0 5 =
      some ⟨false, some "You are trying to spend too much time!"⟩ ∧
    (c4Game.spendTime 1 0 5).err = some GErr.assertionFailed ∧
    ((c4Game.spendTime 1 0 5).playerOf 1).spentHoursToday = 11 ∧
    ((c4Game.spendTime 1 0 5).playerOf 1).deadlines = [dlT0] := by
  decide

end DeadlineGame
